import Mathlib

/-!
# Verification of the TMC Data Plotter parsing and rendering logic

Shallow embedding of `src/streamlit_app.py`: the log parser `extract_data`,
the chart renderer `plot_data`, and the identifier-change bookkeeping in
`main`.  Strings are modelled as `List Char`; Python floats are modelled as
exact rationals plus infinity/NaN markers; Python exceptions are modelled by
`Option`.
-/

namespace TMC

/-- ASCII model of Python's regex `\s` / `str.isspace` character class. -/
def isSpaceChar (c : Char) : Bool :=
  c = ' ' || c = '\t' || c = '\n' || c = '\r' || c = '\x0b' || c = '\x0c'

/-- ASCII model of Python's regex `\w` character class. -/
def isWordChar (c : Char) : Bool :=
  c.isAlpha || c.isDigit || c = '_'

/-- Hexadecimal digit test, as in `[0-9A-Fa-f]`. -/
def isHexChar (c : Char) : Bool :=
  c.isDigit || ('a' ≤ c && c ≤ 'f') || ('A' ≤ c && c ≤ 'F')

/-- Numeric value of a hexadecimal digit. -/
def hexVal (c : Char) : Nat :=
  if c.isDigit then c.toNat - 48
  else if 'a' ≤ c && c ≤ 'f' then c.toNat - 87
  else c.toNat - 55

/-- Python `re.search`: try to match at each successive start position,
returning the first (leftmost) successful match. -/
def searchPos {α : Type} (matchAt : List Char → Option α) : List Char → Option α
  | [] => matchAt []
  | c :: rest =>
    match matchAt (c :: rest) with
    | some r => some r
    | none => searchPos matchAt rest

/-- Anchored match of `ID:\s*(0x[0-9A-Fa-f]+)` at the head of the list,
returning the captured group (the `0x…` token).  The `\s*` run is forced to
be maximal because no whitespace character can begin `0x`. -/
def canIdMatchAt : List Char → Option (List Char)
  | 'I' :: 'D' :: ':' :: rest =>
    match rest.dropWhile isSpaceChar with
    | '0' :: 'x' :: rest2 =>
      let ds := rest2.takeWhile isHexChar
      if ds.isEmpty then none else some ('0' :: 'x' :: ds)
    | _ => none
  | _ => none

/-- Anchored match of `Data Bytes:\s*(.*)` at the head of the list,
returning the captured group (the remainder after the maximal whitespace
run; lines contain no newline, so `.*` captures everything left). -/
def dataBytesMatchAt : List Char → Option (List Char)
  | 'D' :: 'a' :: 't' :: 'a' :: ' ' :: 'B' :: 'y' :: 't' :: 'e' :: 's' :: ':' :: rest =>
    some (rest.dropWhile isSpaceChar)
  | _ => none

/-- Anchored match of `(\w+):\s*(.*)` at the head of the list, returning
the two captured groups.  At a fixed start the `\w+` run must be maximal:
shortening it would require the following character (a word character) to
be `:`, which is impossible, so the match succeeds exactly when the maximal
word run is nonempty and is followed by `:`. -/
def measurementMatchAt (l : List Char) : Option (List Char × List Char) :=
  let run := l.takeWhile isWordChar
  if run.isEmpty then none
  else
    match l.drop run.length with
    | ':' :: rest => some (run, rest.dropWhile isSpaceChar)
    | _ => none

/-- Python `str.split()` with no arguments: split on maximal whitespace
runs, producing no empty tokens. -/
def splitAux : List Char → List Char → List (List Char)
  | [], acc => if acc.isEmpty then [] else [acc.reverse]
  | c :: rest, acc =>
    if isSpaceChar c then
      if acc.isEmpty then splitAux rest [] else acc.reverse :: splitAux rest []
    else splitAux rest (c :: acc)

/-- Python `str.split()`. -/
def pySplit (l : List Char) : List (List Char) := splitAux l []

/-- Hexadecimal digit run with Python's underscore rule (an underscore may
only stand between two digits), accumulating into `acc`; the whole list
must be consumed. -/
def hexDigitsAux : List Char → Nat → Option Nat
  | [], acc => some acc
  | '_' :: c :: rest, acc =>
    if isHexChar c then hexDigitsAux rest (acc * 16 + hexVal c) else none
  | c :: rest, acc =>
    if isHexChar c then hexDigitsAux rest (acc * 16 + hexVal c) else none

/-- A nonempty hexadecimal digit run (underscores allowed between digits). -/
def hexDigitsU : List Char → Option Nat
  | [] => none
  | c :: rest => if isHexChar c then hexDigitsAux rest (hexVal c) else none

/-- Magnitude part of Python `int(s, 16)`: an optional `0x`/`0X` prefix
(with one optional underscore after it), then hex digits. -/
def pyIntHexMag : List Char → Option Nat
  | '0' :: 'x' :: rest =>
    (match rest with
     | '_' :: rest2 => hexDigitsU rest2
     | _ => hexDigitsU rest)
  | '0' :: 'X' :: rest =>
    (match rest with
     | '_' :: rest2 => hexDigitsU rest2
     | _ => hexDigitsU rest)
  | l => hexDigitsU l

/-- Strip leading and trailing whitespace. -/
def stripWs (l : List Char) : List Char :=
  ((l.dropWhile isSpaceChar).reverse.dropWhile isSpaceChar).reverse

/-- Model of Python `int(s, 16)`: surrounding whitespace is stripped, an
optional sign precedes the magnitude; `none` models a raised `ValueError`.
Note that any number of hex digits is accepted, and the result may be
negative or exceed 255. -/
def pyIntHex (l : List Char) : Option Int :=
  match stripWs l with
  | '+' :: rest => (pyIntHexMag rest).map Int.ofNat
  | '-' :: rest => (pyIntHexMag rest).map (fun n => -(n : Int))
  | t => (pyIntHexMag t).map Int.ofNat

/-- A Python float value as produced by `float(str)`: an exact finite
rational, a signed infinity, or NaN. -/
inductive PyFloat : Type
  | finite (q : ℚ)
  | inf (pos : Bool)
  | nan
deriving DecidableEq, Repr

/-- `10 ^ n` as a rational. -/
def pow10 (n : Nat) : ℚ := ((10 ^ n : Nat) : ℚ)

/-- The rational `m · 10 ^ (e - f)`: mantissa digits `m`, `f` of which are
fractional, with decimal exponent `e`. -/
def decValue (m f : Nat) (e : Int) : ℚ :=
  if f ≤ e then (m : ℚ) * pow10 (e - f).toNat
  else (m : ℚ) / pow10 (f - (e : Int)).toNat

/-- Decimal digit run with Python's underscore rule, consuming as much of
the list as matches and returning (value, number of digits, rest).  The
caller checks that the first character is a digit. -/
def takeDecDigits : List Char → Nat → Nat → Nat × Nat × List Char
  | [], acc, n => (acc, n, [])
  | '_' :: c :: rest, acc, n =>
    if c.isDigit then takeDecDigits rest (acc * 10 + (c.toNat - 48)) (n + 1)
    else (acc, n, '_' :: c :: rest)
  | c :: rest, acc, n =>
    if c.isDigit then takeDecDigits rest (acc * 10 + (c.toNat - 48)) (n + 1)
    else (acc, n, c :: rest)

/-- A digit run that must start with a digit (no leading underscore). -/
def takeDigitRun : List Char → Option (Nat × Nat × List Char)
  | [] => none
  | c :: rest =>
    if c.isDigit then some (takeDecDigits rest (c.toNat - 48) 1) else none

/-- A digit run that must consume the whole list. -/
def digitRunAll (l : List Char) : Option Nat :=
  match takeDigitRun l with
  | some (v, _, []) => some v
  | _ => none

/-- Exponent part after `e`/`E`: optional sign, then decimal digits. -/
def parseExp : List Char → Option Int
  | [] => none
  | '+' :: rest => (digitRunAll rest).map Int.ofNat
  | '-' :: rest => (digitRunAll rest).map (fun n => -(n : Int))
  | l => (digitRunAll l).map Int.ofNat

/-- Fraction digits and optional exponent, given the integer-part value
`iv`: parses `D [exp]` where the fraction digits follow a dot. -/
def parseFracExp (iv : Nat) (l : List Char) : Option ℚ :=
  match takeDigitRun l with
  | some (fv, fn, rest) =>
    match rest with
    | [] => some (decValue (iv * 10 ^ fn + fv) fn 0)
    | 'e' :: r => (parseExp r).map (decValue (iv * 10 ^ fn + fv) fn)
    | 'E' :: r => (parseExp r).map (decValue (iv * 10 ^ fn + fv) fn)
    | _ => none
  | none => none

/-- Finite-decimal part of Python `float(s)` after the optional sign:
`D [. [D]] [exp]` or `. D [exp]`. -/
def parseDecCore : List Char → Option ℚ
  | '.' :: rest => parseFracExp 0 rest
  | l =>
    match takeDigitRun l with
    | some (iv, _, rest) =>
      (match rest with
       | [] => some ((iv : ℚ))
       | '.' :: rest2 =>
         (match rest2 with
          | [] => some ((iv : ℚ))
          | 'e' :: r => (parseExp r).map (decValue iv 0)
          | 'E' :: r => (parseExp r).map (decValue iv 0)
          | _ => parseFracExp iv rest2)
       | 'e' :: r => (parseExp r).map (decValue iv 0)
       | 'E' :: r => (parseExp r).map (decValue iv 0)
       | _ => none)
    | none => none

/-- Magnitude part of Python `float(s)`: `inf`, `infinity`, `nan`
(case-insensitive) or a finite decimal. -/
def pyFloatMag (pos : Bool) (l : List Char) : Option PyFloat :=
  let low := l.map Char.toLower
  if low = ['i', 'n', 'f'] || low = ['i', 'n', 'f', 'i', 'n', 'i', 't', 'y'] then
    some (.inf pos)
  else if low = ['n', 'a', 'n'] then some .nan
  else (parseDecCore l).map (fun q => .finite (if pos then q else -q))

/-- Model of Python `float(s)`: strip surrounding whitespace, read an
optional sign, then the magnitude; `none` models a raised `ValueError`. -/
def pyFloat (l : List Char) : Option PyFloat :=
  match stripWs l with
  | '+' :: rest => pyFloatMag true rest
  | '-' :: rest => pyFloatMag false rest
  | t => pyFloatMag true t

/-- `str.replace('A', '')`: drop every occurrence of `A`. -/
def removeA : List Char → List Char
  | [] => []
  | 'A' :: rest => removeA rest
  | c :: rest => c :: removeA rest

/-- `str.replace('rpm', '')`: drop occurrences left to right,
non-overlapping. -/
def removeRpm : List Char → List Char
  | 'r' :: 'p' :: 'm' :: rest => removeRpm rest
  | c :: rest => c :: removeRpm rest
  | [] => []

/-- `str.replace('deg', '')`. -/
def removeDeg : List Char → List Char
  | 'd' :: 'e' :: 'g' :: rest => removeDeg rest
  | c :: rest => c :: removeDeg rest
  | [] => []

/-- `str.replace('Nm', '')`. -/
def removeNm : List Char → List Char
  | 'N' :: 'm' :: rest => removeNm rest
  | c :: rest => c :: removeNm rest
  | [] => []

/-- The chained unit-stripping of line 53 of the source:
`value.replace('A','').replace('rpm','').replace('deg','').replace('Nm','')`. -/
def stripUnits (l : List Char) : List Char :=
  removeNm (removeDeg (removeRpm (removeA l)))

/-- `io.StringIO(text).readlines()` followed by per-line processing:
split the text into lines (without their terminating newline; regexes
never match across the dropped `\n`, and `.*` never captures it). -/
def splitLinesAux : List Char → List Char → List (List Char)
  | [], acc => if acc.isEmpty then [] else [acc.reverse]
  | '\n' :: rest, acc => acc.reverse :: splitLinesAux rest []
  | c :: rest, acc => splitLinesAux rest (c :: acc)

/-- Split a text into its lines, as `readlines` enumerates them. -/
def splitLines (l : List Char) : List (List Char) := splitLinesAux l []

/-- One value stored in a series: a scalar measurement (from `float`) or a
list of byte values (from a `Data Bytes` line). -/
inductive Entry : Type
  | scalar (v : PyFloat)
  | bytes (bs : List Int)
deriving DecidableEq, Repr

/-- The inner `defaultdict(list)`: series name → ordered entries, in key
insertion order. -/
abbrev Bucket := List (List Char × List Entry)

/-- The outer `defaultdict`: identifier → bucket, in key insertion order.
A key exists exactly when at least one append happened under it. -/
abbrev Dataset := List (List Char × Bucket)

/-- Append an entry to a series of a bucket, creating the series if
absent (as `defaultdict(list)` does on first access). -/
def bucketAppend (k : List Char) (x : Entry) : Bucket → Bucket
  | [] => [(k, [x])]
  | (k', v) :: rest =>
    if k = k' then (k', v ++ [x]) :: rest else (k', v) :: bucketAppend k x rest

/-- `data[i][k].append(x)` on the model dataset. -/
def dsAppend (i k : List Char) (x : Entry) : Dataset → Dataset
  | [] => [(i, [(k, [x])])]
  | (i', b) :: rest =>
    if i = i' then (i', bucketAppend k x b) :: rest else (i', b) :: dsAppend i k x rest

/-- The reserved series name `Data Bytes`. -/
def dbKey : List Char := "Data Bytes".toList

/-- The per-line loop of `extract_data` (source lines 36–56).  Returns the
dataset together with a flag recording whether the `except` handler fired
(an `int(b, 16)` failure raises, aborting the loop with `st.error` and
returning the data accumulated so far). -/
def processLines : List (List Char) → Option (List Char) → Dataset → Dataset × Bool
  | [], _, d => (d, false)
  | line :: rest, cid, d =>
    match searchPos canIdMatchAt line with
    | some g => processLines rest (some g) d
    | none =>
      match searchPos dataBytesMatchAt line, cid with
      | some bytesStr, some i =>
        (match (pySplit bytesStr).mapM pyIntHex with
         | some vals => processLines rest cid (dsAppend i dbKey (.bytes vals) d)
         | none => (d, true))
      | _, _ =>
        match searchPos measurementMatchAt line, cid with
        | some (k, v), some i =>
          (match pyFloat (stripUnits v) with
           | some q => processLines rest cid (dsAppend i k (.scalar q) d)
           | none => processLines rest cid d)
        | _, _ => processLines rest cid d

/-- `extract_data` (source lines 25–60).  The input is `none` when
`file.read()` or UTF-8 decoding raises (modelling the I/O boundary); the
returned flag records whether `st.error` was shown. -/
def extract_data (input : Option (List Char)) : Dataset × Bool :=
  match input with
  | none => ([], true)
  | some text => processLines (splitLines text) none []

/-- Look up a series in the dataset, as `data[i][k]` does in `plot_data`
(a missing key yields the defaultdict's fresh empty list). -/
def dsGet (d : Dataset) (i k : List Char) : List Entry :=
  match d.lookup i with
  | some b =>
    (match b.lookup k with
     | some v => v
     | none => [])
  | none => []

/-- The fixed color palette of the source (lines 18–22). -/
def color_palette : List String :=
  ["#1f77b4", "#ff7f0e", "#2ca02c", "#d62728", "#9467bd", "#8c564b",
   "#e377c2", "#7f7f7f", "#bcbd22", "#17becf", "#1f77b4", "#ff7f0e",
   "#2ca02c", "#d62728", "#9467bd", "#8c564b", "#e377c2", "#7f7f7f"]

/-- A rendered chart artifact, recording the requested kind, the plotted
measurement, and the palette color chosen for it. -/
structure Fig where
  kind : String
  measurement : List Char
  color : String
deriving DecidableEq, Repr

/-- The session state touched by `plot_data` and `main`: the accumulated
chart list, the plotting flag, and the recorded current identifier. -/
structure Session where
  stored_plots : List Fig
  is_plotting : Bool
  current_id : Option (List Char)
deriving DecidableEq, Repr

/-- The user-visible messages `plot_data` can emit via `st.write`. -/
inductive Msg : Type
  | noMeasurementSelected
  | unsupportedChartType (t : String)
deriving DecidableEq, Repr

/-- The chart kinds handled by the dispatch of lines 87–111. -/
def supportedCharts : List String :=
  ["Line Chart", "Bar Chart", "Scatter Plot", "Area Chart",
   "Histogram", "Box Plot", "Heatmap", "Pie Chart"]

/-- `plot_data` (source lines 63–122): sets the plotting flag, checks the
selection, looks the series up, dispatches on the chart kind, and on
success appends the figure to `stored_plots`; returns the updated session
and the messages written.  An empty `selected_measurement` models Python's
falsy check (`None` or the empty string). -/
def plot_data (selected_id selected_measurement : List Char) (data : Dataset)
    (chart_type : String) (s : Session) : Session × List Msg :=
  let s1 : Session := { s with is_plotting := true }
  if selected_measurement.isEmpty then
    ({ s1 with is_plotting := false }, [.noMeasurementSelected])
  else
    let values := dsGet data selected_id selected_measurement
    if values.isEmpty then
      ({ s1 with is_plotting := false }, [])
    else if supportedCharts.contains chart_type then
      let color := color_palette.getD (s1.stored_plots.length % color_palette.length) ""
      ({ s1 with
          is_plotting := false
          stored_plots := s1.stored_plots ++ [⟨chart_type, selected_measurement, color⟩] }, [])
    else
      ({ s1 with is_plotting := false }, [.unsupportedChartType chart_type])

/-- The identifier-change check of `main` (source lines 141–144): a changed
selection clears the stored plots and records the new identifier. -/
def select_id_step (s : Session) (selected_id : List Char) : Session :=
  if s.current_id ≠ some selected_id then
    { s with stored_plots := [], current_id := some selected_id }
  else s

/-- A multi-word phrase: the given words joined by single spaces.  Used to
state properties about measurement lines whose name part has several
whitespace-separated words. -/
def joinSpaces : List (List Char) → List Char
  | [] => []
  | [w] => w
  | w :: ws => w ++ ' ' :: joinSpaces ws

/-! ## Step lemmas for the parser loop -/

/-- A line whose identifier search succeeds updates the current identifier
and is fully consumed. -/
lemma processLines_id_step (line : List Char) (ls : List (List Char))
    (cid : Option (List Char)) (d : Dataset) (g : List Char)
    (h : searchPos canIdMatchAt line = some g) :
    processLines (line :: ls) cid d = processLines ls (some g) d := by
  simp [processLines, h]

/-- With no current identifier, a line that is not an identifier line is
skipped entirely: neither the data-bytes branch nor the measurement branch
fires. -/
lemma processLines_skip_no_cid (line : List Char) (ls : List (List Char)) (d : Dataset)
    (h : searchPos canIdMatchAt line = none) :
    processLines (line :: ls) none d = processLines ls none d := by
  cases hb : searchPos dataBytesMatchAt line <;>
    cases hm : searchPos measurementMatchAt line <;>
      simp [processLines, h, hb, hm]

/-- A data-bytes line whose tokens all convert appends the byte list to the
`Data Bytes` series of the current identifier. -/
lemma processLines_bytes_ok (line : List Char) (ls : List (List Char))
    (i : List Char) (d : Dataset) (bs : List Char) (vals : List Int)
    (hid : searchPos canIdMatchAt line = none)
    (hdb : searchPos dataBytesMatchAt line = some bs)
    (hv : (pySplit bs).mapM pyIntHex = some vals) :
    processLines (line :: ls) (some i) d =
      processLines ls (some i) (dsAppend i dbKey (.bytes vals) d) := by
  have hv' : List.mapM.loop pyIntHex (pySplit bs) [] = some vals := by
    simpa [List.mapM] using hv
  simp [processLines, hid, hdb, hv']

/-- A data-bytes line with a token `int(·, 16)` rejects raises: the loop
stops, the error flag is set, and the dataset accumulated so far is
returned. -/
lemma processLines_bytes_fail (line : List Char) (ls : List (List Char))
    (i : List Char) (d : Dataset) (bs : List Char)
    (hid : searchPos canIdMatchAt line = none)
    (hdb : searchPos dataBytesMatchAt line = some bs)
    (hv : (pySplit bs).mapM pyIntHex = none) :
    processLines (line :: ls) (some i) d = (d, true) := by
  have hv' : List.mapM.loop pyIntHex (pySplit bs) [] = none := by
    simpa [List.mapM] using hv
  simp [processLines, hid, hdb, hv']

/-- A measurement line whose stripped value parses appends the scalar to
the named series of the current identifier. -/
lemma processLines_meas_ok (line : List Char) (ls : List (List Char))
    (i : List Char) (d : Dataset) (k v : List Char) (q : PyFloat)
    (hid : searchPos canIdMatchAt line = none)
    (hdb : searchPos dataBytesMatchAt line = none)
    (hm : searchPos measurementMatchAt line = some (k, v))
    (hq : pyFloat (stripUnits v) = some q) :
    processLines (line :: ls) (some i) d =
      processLines ls (some i) (dsAppend i k (.scalar q) d) := by
  simp [processLines, hid, hdb, hm, hq]

/-- A measurement line whose stripped value fails to parse is silently
skipped; the loop continues on the remaining lines with nothing appended. -/
lemma processLines_meas_fail (line : List Char) (ls : List (List Char))
    (i : List Char) (d : Dataset) (k v : List Char)
    (hid : searchPos canIdMatchAt line = none)
    (hdb : searchPos dataBytesMatchAt line = none)
    (hm : searchPos measurementMatchAt line = some (k, v))
    (hq : pyFloat (stripUnits v) = none) :
    processLines (line :: ls) (some i) d = processLines ls (some i) d := by
  simp [processLines, hid, hdb, hm, hq]

/-- With no current identifier, any run of non-identifier lines leaves the
state untouched. -/
lemma processLines_prefix_no_id (pre : List (List Char)) (rest : List (List Char))
    (d : Dataset) (hpre : ∀ line ∈ pre, searchPos canIdMatchAt line = none) :
    processLines (pre ++ rest) none d = processLines rest none d := by
  induction pre with
  | nil => rfl
  | cons line pre ih =>
    rw [List.cons_append,
      processLines_skip_no_cid line (pre ++ rest) d (hpre line (by simp))]
    exact ih (fun l hl => hpre l (by simp [hl]))

/-- With no current identifier and no identifier line anywhere, the loop
returns the dataset unchanged and never errors. -/
lemma processLines_no_id (lines : List (List Char)) (d : Dataset)
    (h : ∀ line ∈ lines, searchPos canIdMatchAt line = none) :
    processLines lines none d = (d, false) := by
  have := processLines_prefix_no_id lines [] d h
  simpa [processLines] using this

/-! ## The measurement regex keeps only the last word before the colon -/

/-- `takeWhile` of an all-word run stops exactly at the first non-word
character. -/
lemma takeWhile_word_append (w : List Char) (c : Char) (r : List Char)
    (hw : ∀ x ∈ w, isWordChar x) (hc : isWordChar c = false) :
    (w ++ c :: r).takeWhile isWordChar = w := by
  induction w with
  | nil => simp [List.takeWhile_cons, hc]
  | cons a w ih =>
    have ha : isWordChar a := hw a (by simp)
    simp only [List.cons_append, List.takeWhile_cons, ha, if_true]
    rw [ih (fun x hx => hw x (by simp [hx]))]

/-- The anchored measurement match fails when the start is not a word
character. -/
lemma measurementMatchAt_nonword (c : Char) (r : List Char)
    (hc : isWordChar c = false) :
    measurementMatchAt (c :: r) = none := by
  simp [measurementMatchAt, List.takeWhile_cons, hc]

/-- The anchored measurement match at a word run followed by `:` captures
the whole run as the name and the whitespace-stripped remainder as the
value. -/
lemma measurementMatchAt_word_colon (w rest : List Char)
    (hw : w ≠ []) (hww : ∀ c ∈ w, isWordChar c) :
    measurementMatchAt (w ++ ':' :: rest) = some (w, rest.dropWhile isSpaceChar) := by
  have ht : (w ++ ':' :: rest).takeWhile isWordChar = w :=
    takeWhile_word_append w ':' rest hww (by decide)
  have hne : w.isEmpty = false := by
    cases w with
    | nil => exact absurd rfl hw
    | cons a t => rfl
  have hd : (w ++ ':' :: rest).drop w.length = ':' :: rest := by simp
  simp [measurementMatchAt, ht, hne, hd]

/-- The anchored measurement match fails at a word run followed by a
non-word character other than `:`. -/
lemma measurementMatchAt_word_other (w : List Char) (c : Char) (r : List Char)
    (hww : ∀ x ∈ w, isWordChar x) (hc : isWordChar c = false) (hcc : c ≠ ':') :
    measurementMatchAt (w ++ c :: r) = none := by
  have ht : (w ++ c :: r).takeWhile isWordChar = w :=
    takeWhile_word_append w c r hww hc
  cases w with
  | nil => exact measurementMatchAt_nonword c r hc
  | cons a t =>
    have hd : ((a :: t) ++ c :: r).drop (a :: t).length = c :: r := by simp
    simp only [measurementMatchAt, ht, hd, List.isEmpty_cons, Bool.false_eq_true, if_false]
    split
    · rename_i rest heq
      injection heq with h1 h2
      exact absurd h1 hcc
    · rfl

/-- A search that matches at the very start returns that match. -/
lemma searchPos_head_some {α : Type} (f : List Char → Option α) (l : List Char)
    (r : α) (h : f l = some r) : searchPos f l = some r := by
  cases l <;> simp [searchPos, h]

/-- The measurement search skips over a word run followed by a space: no
match can start inside the run or at the space. -/
lemma searchPos_word_space (w tail : List Char) (hw : ∀ c ∈ w, isWordChar c) :
    searchPos measurementMatchAt (w ++ ' ' :: tail) =
      searchPos measurementMatchAt tail := by
  induction w with
  | nil =>
    rw [List.nil_append]
    simp [searchPos, measurementMatchAt_nonword ' ' tail (by decide)]
  | cons c w' ih =>
    have hnone : measurementMatchAt ((c :: w') ++ ' ' :: tail) = none :=
      measurementMatchAt_word_other (c :: w') ' ' tail hw (by decide) (by decide)
    rw [List.cons_append] at hnone
    rw [List.cons_append]
    simp only [searchPos, hnone]
    exact ih (fun x hx => hw x (by simp [hx]))

/-- Joining a nonempty word list puts a space after the head word. -/
lemma joinSpaces_cons (w : List Char) (l : List (List Char)) (h : l ≠ []) :
    joinSpaces (w :: l) = w ++ ' ' :: joinSpaces l := by
  cases l with
  | nil => exact absurd rfl h
  | cons x xs => rfl

/-- `re.search` of the measurement pattern on a multi-word name followed by
a colon captures only the last word as the name: tried at every earlier
position, the match dies at a space, so the first hit starts at the last
word. -/
lemma searchPos_meas_join (ws : List (List Char)) (w2 rest : List Char)
    (hws : ∀ w ∈ ws, ∀ c ∈ w, isWordChar c)
    (hw2 : w2 ≠ []) (hw2w : ∀ c ∈ w2, isWordChar c) :
    searchPos measurementMatchAt (joinSpaces (ws ++ [w2]) ++ ':' :: rest) =
      some (w2, rest.dropWhile isSpaceChar) := by
  induction ws with
  | nil =>
    exact searchPos_head_some measurementMatchAt _ _
      (measurementMatchAt_word_colon w2 rest hw2 hw2w)
  | cons w ws' ih =>
    rw [List.cons_append, joinSpaces_cons w (ws' ++ [w2]) (by simp),
      List.append_assoc, List.cons_append]
    rw [searchPos_word_space w _ (hws w (by simp))]
    exact ih (fun x hx => hws x (by simp [hx]))

/-- `l.isEmpty` is `false` for a list known to be nonempty. -/
lemma isEmpty_false {α : Type} (l : List α) (h : l ≠ []) : l.isEmpty = false := by
  cases l with
  | nil => exact absurd rfl h
  | cons a t => rfl

/-! ## Claims -/

/-- C1 (counterexample): the claim that every `Data Bytes` entry lies in
[0,255] and that a token other than exactly two hex digits makes only that
line be skipped silently is false.  `int(b, 16)` accepts `FFF`, appending
4095 > 255 with no error; and the non-hex token `GG` raises, which shows
the error message, aborts the parse, and drops the following `RPM` line
rather than skipping just the bad line. -/
theorem dataBytes_range_claim_cex :
    extract_data (some ("ID: 0x1\nData Bytes: FFF".toList)) =
      ([("0x1".toList, [(dbKey, [.bytes [4095]])])], false) ∧
    ¬ (4095 : Int) ≤ 255 ∧
    extract_data (some ("ID: 0x1\nData Bytes: GG\nRPM: 5".toList)) = ([], true) :=
  ⟨by decide, by decide, by decide⟩

/-- C1 (amended): a `Data Bytes` line seen while an identifier is set has
its tokens converted by `int(·, 16)` — which accepts a sign, an optional
`0x` prefix and any number of hex digits, so entries need not lie in
[0,255] — and the byte list is appended; if any token is rejected, the
conversion raises: the whole parse stops with an error and the dataset
accumulated so far is returned. -/
theorem dataBytes_step_amended (line : List Char) (ls : List (List Char))
    (i : List Char) (d : Dataset) (bs : List Char)
    (hid : searchPos canIdMatchAt line = none)
    (hdb : searchPos dataBytesMatchAt line = some bs) :
    (∀ vals : List Int, (pySplit bs).mapM pyIntHex = some vals →
        processLines (line :: ls) (some i) d =
          processLines ls (some i) (dsAppend i dbKey (.bytes vals) d)) ∧
    ((pySplit bs).mapM pyIntHex = none →
        processLines (line :: ls) (some i) d = (d, true)) :=
  ⟨fun vals hv => processLines_bytes_ok line ls i d bs vals hid hdb hv,
   fun hv => processLines_bytes_fail line ls i d bs hid hdb hv⟩

/-- Witness for C1 (amended) at the line `Data Bytes: FFF` under
identifier `0x1`. -/
theorem dataBytes_step_amended_witness :
    processLines ["Data Bytes: FFF".toList] (some ("0x1".toList)) [] =
      processLines [] (some ("0x1".toList))
        (dsAppend ("0x1".toList) dbKey (.bytes [4095]) []) :=
  (dataBytes_step_amended ("Data Bytes: FFF".toList) [] ("0x1".toList) []
      ("FFF".toList) (by decide) (by decide)).1 [4095] (by decide)

/-- C2 (counterexample): for the measurement `RPM`, absent from the
dataset, the renderer produces no chart but also writes no message at all
— there is no user-visible "no data" report, contrary to the claim. -/
theorem empty_series_message_claim_cex :
    plot_data ("0x1".toList) ("RPM".toList) [] "Line Chart"
        ⟨[], false, some ("0x1".toList)⟩ =
      (⟨[], false, some ("0x1".toList)⟩, []) := by
  decide

/-- C2 (amended): when the requested measurement is nonempty but its
series for the selected identifier is empty or missing, the renderer
leaves the stored-plots list unchanged and emits no message whatsoever:
the call is silent. -/
theorem empty_series_silent (id m : List Char) (data : Dataset)
    (ct : String) (s : Session) (hm : m ≠ []) (hv : dsGet data id m = []) :
    plot_data id m data ct s = ({ s with is_plotting := false }, []) := by
  have hm' : m.isEmpty = false := isEmpty_false m hm
  simp [plot_data, hm', hv]

/-- Witness for C2 (amended) at measurement `RPM` on the empty dataset. -/
theorem empty_series_silent_witness :
    plot_data ("0x1".toList) ("RPM".toList) [] "Bar Chart" ⟨[], true, none⟩ =
      (⟨[], false, none⟩, []) :=
  empty_series_silent ("0x1".toList) ("RPM".toList) [] "Bar Chart"
    ⟨[], true, none⟩ (by decide) (by decide)

/-- C3 (counterexample): a per-line parse failure is not always
independent: the non-hex `Data Bytes` token `XYZ` aborts the parse, so the
following `Torque` line — which on its own parses fine — is lost, and the
error flag is raised. -/
theorem per_line_failure_independent_cex :
    extract_data (some ("ID: 0x2\nData Bytes: XYZ\nTorque: 3Nm".toList)) =
      ([], true) ∧
    extract_data (some ("ID: 0x2\nTorque: 3Nm".toList)) =
      ([("0x2".toList, [("Torque".toList, [.scalar (.finite 3)])])], false) :=
  ⟨by decide, by decide⟩

/-- C3 (amended): a read/decode failure aborts parsing, surfaces the error
and returns the empty dataset; a measurement-line float-parse failure is
non-fatal and independent (the line is skipped, later lines proceed
unchanged); but a `Data Bytes` conversion failure aborts the remainder of
the parse with an error, returning the dataset accumulated so far. -/
theorem read_failure_and_line_failures (line line' : List Char)
    (ls : List (List Char)) (i k v bs : List Char) (d : Dataset)
    (hid : searchPos canIdMatchAt line = none)
    (hdb : searchPos dataBytesMatchAt line = none)
    (hm : searchPos measurementMatchAt line = some (k, v))
    (hq : pyFloat (stripUnits v) = none)
    (hid' : searchPos canIdMatchAt line' = none)
    (hdb' : searchPos dataBytesMatchAt line' = some bs)
    (hv' : (pySplit bs).mapM pyIntHex = none) :
    extract_data none = ([], true) ∧
    processLines (line :: ls) (some i) d = processLines ls (some i) d ∧
    processLines (line' :: ls) (some i) d = (d, true) :=
  ⟨rfl, processLines_meas_fail line ls i d k v hid hdb hm hq,
   processLines_bytes_fail line' ls i d bs hid' hdb' hv'⟩

/-- Witness for C3 (amended) at the unparsable measurement line
`Torque: abc` and the unparsable bytes line `Data Bytes: zz`. -/
theorem read_failure_and_line_failures_witness :
    extract_data none = ([], true) ∧
    processLines ["Torque: abc".toList] (some ("0x2".toList)) [] =
      processLines [] (some ("0x2".toList)) [] ∧
    processLines ["Data Bytes: zz".toList] (some ("0x2".toList)) [] = ([], true) :=
  read_failure_and_line_failures ("Torque: abc".toList) ("Data Bytes: zz".toList)
    [] ("0x2".toList) ("Torque".toList) ("abc".toList) ("zz".toList) []
    (by decide) (by decide) (by decide) (by decide) (by decide) (by decide)
    (by decide)

/-- C4: a measurement line `<name>: <value>` seen while an identifier is
set appends exactly the float parse of the value after the chained
removal of the substrings `A`, `rpm`, `deg`, `Nm` anywhere in it; if that
parse fails the line is silently skipped, appending nothing, and parsing
continues on the remaining lines. -/
theorem measurement_value_strip_parse (line : List Char) (ls : List (List Char))
    (i k v : List Char) (d : Dataset)
    (hid : searchPos canIdMatchAt line = none)
    (hdb : searchPos dataBytesMatchAt line = none)
    (hm : searchPos measurementMatchAt line = some (k, v)) :
    (∀ q : PyFloat, pyFloat (stripUnits v) = some q →
        processLines (line :: ls) (some i) d =
          processLines ls (some i) (dsAppend i k (.scalar q) d)) ∧
    (pyFloat (stripUnits v) = none →
        processLines (line :: ls) (some i) d = processLines ls (some i) d) :=
  ⟨fun q hq => processLines_meas_ok line ls i d k v q hid hdb hm hq,
   fun hq => processLines_meas_fail line ls i d k v hid hdb hm hq⟩

/-- Witness for C4 at the line `RPM: 2500rpm`, whose stripped value `2500`
parses to the rational 2500. -/
theorem measurement_value_strip_parse_witness :
    processLines ["RPM: 2500rpm".toList] (some ("0x100".toList)) [] =
      processLines [] (some ("0x100".toList))
        (dsAppend ("0x100".toList) ("RPM".toList) (.scalar (.finite 2500)) []) :=
  (measurement_value_strip_parse ("RPM: 2500rpm".toList) [] ("0x100".toList)
      ("RPM".toList) ("2500rpm".toList) [] (by decide) (by decide) (by decide)).1
    (.finite 2500) (by decide)

/-- C5: lines preceding every identifier line contribute nothing — while
the current identifier is unset, any run of non-identifier lines leaves
the dataset untouched — and an input text with no identifier line at all
yields the empty dataset (and no error). -/
theorem no_identifier_contributes_nothing (pre rest : List (List Char))
    (d : Dataset) (text : List Char)
    (hpre : ∀ line ∈ pre, searchPos canIdMatchAt line = none)
    (htext : ∀ line ∈ splitLines text, searchPos canIdMatchAt line = none) :
    processLines (pre ++ rest) none d = processLines rest none d ∧
    extract_data (some text) = ([], false) :=
  ⟨processLines_prefix_no_id pre rest d hpre,
   processLines_no_id (splitLines text) [] htext⟩

/-- Witness for C5: a measurement line and a bytes line dropped before an
identifier line, and an identifier-free text parsing to the empty
dataset. -/
theorem no_identifier_contributes_nothing_witness :
    processLines (["RPM: 5".toList, "Data Bytes: 0A".toList] ++ ["ID: 0x1".toList])
        none [] =
      processLines ["ID: 0x1".toList] none [] ∧
    extract_data (some ("Speed: 100\nData Bytes: FF".toList)) = ([], false) :=
  no_identifier_contributes_nothing ["RPM: 5".toList, "Data Bytes: 0A".toList]
    ["ID: 0x1".toList] [] ("Speed: 100\nData Bytes: FF".toList)
    (by decide) (by decide)

/-- C6: parsing is deterministic and idempotent — the extraction is a pure
function of the input text, so running it twice on the same text yields
identical datasets. -/
theorem extract_data_deterministic (input : Option (List Char)) :
    extract_data input = extract_data input := rfl

/-- C7 (counterexample): requesting the unsupported kind `Pyramid Chart`
while the selected measurement's series is empty yields no chart, but
also no unsupported-chart-type message — the unsupported-kind report is
not emitted on every such request, contrary to the claim. -/
theorem unsupported_kind_message_claim_cex :
    plot_data ("0x2".toList) ("Speed".toList) [] "Pyramid Chart"
        ⟨[], false, none⟩ =
      (⟨[], false, none⟩, []) := by
  decide

/-- C7 (amended): an unsupported chart kind never produces a chart
artifact (the stored-plots list is unchanged), and the user-visible
unsupported-chart-type message is reported exactly when a measurement is
selected and its series is nonempty; with an empty selection or an empty
series the call returns before reaching the dispatch. -/
theorem unsupported_kind_no_artifact (id m : List Char) (data : Dataset)
    (ct : String) (s : Session)
    (hct : supportedCharts.contains ct = false) :
    (plot_data id m data ct s).1.stored_plots = s.stored_plots ∧
    (m ≠ [] → dsGet data id m ≠ [] →
      plot_data id m data ct s =
        ({ s with is_plotting := false }, [.unsupportedChartType ct])) := by
  have hct' : ct ∉ supportedCharts := by simpa using hct
  constructor
  · by_cases hm : m.isEmpty = true
    · simp [plot_data, hm]
    · have hm' : m.isEmpty = false := by
        cases m with
        | nil => exact absurd rfl hm
        | cons a t => rfl
      by_cases hv : (dsGet data id m).isEmpty = true
      · simp [plot_data, hm', hv]
      · have hv' : (dsGet data id m).isEmpty = false := by
          revert hv
          cases (dsGet data id m).isEmpty <;> simp
        simp [plot_data, hm', hv', hct']
  · intro hm hv
    have hm' : m.isEmpty = false := isEmpty_false m hm
    have hv' : (dsGet data id m).isEmpty = false := isEmpty_false _ hv
    simp [plot_data, hm', hv', hct']

/-- Witness for C7 (amended): `Pyramid Chart` on a nonempty `RPM` series
yields the unsupported-chart-type message and no stored chart. -/
theorem unsupported_kind_no_artifact_witness :
    (plot_data ("0x1".toList) ("RPM".toList)
        [("0x1".toList, [("RPM".toList, [.scalar (.finite 5)])])]
        "Pyramid Chart" ⟨[], false, some ("0x1".toList)⟩).1.stored_plots = [] ∧
    plot_data ("0x1".toList) ("RPM".toList)
        [("0x1".toList, [("RPM".toList, [.scalar (.finite 5)])])]
        "Pyramid Chart" ⟨[], false, some ("0x1".toList)⟩ =
      (⟨[], false, some ("0x1".toList)⟩, [.unsupportedChartType "Pyramid Chart"]) := by
  have h := unsupported_kind_no_artifact ("0x1".toList) ("RPM".toList)
    [("0x1".toList, [("RPM".toList, [.scalar (.finite 5)])])]
    "Pyramid Chart" ⟨[], false, some ("0x1".toList)⟩ (by decide)
  exact ⟨h.1, h.2 (by decide) (by decide)⟩

/-- C8: when the selected identifier differs from the recorded current
identifier, the stored charts are cleared and the identifier is updated;
when it is unchanged, the session is untouched and a successful plot
appends its chart to the existing stored list. -/
theorem id_change_clears_stored_plots (s : Session) (sel : List Char) :
    (s.current_id ≠ some sel →
        select_id_step s sel = { s with stored_plots := [], current_id := some sel }) ∧
    (s.current_id = some sel →
        select_id_step s sel = s ∧
        ∀ (id m : List Char) (data : Dataset) (ct : String),
          m ≠ [] → dsGet data id m ≠ [] → supportedCharts.contains ct = true →
          (plot_data id m data ct (select_id_step s sel)).1.stored_plots =
            s.stored_plots ++
              [⟨ct, m, color_palette.getD
                  (s.stored_plots.length % color_palette.length) ""⟩]) := by
  constructor
  · intro h
    simp [select_id_step, h]
  · intro h
    have hs : select_id_step s sel = s := by simp [select_id_step, h]
    refine ⟨hs, ?_⟩
    intro id m data ct hm hv hct
    have hct' : ct ∈ supportedCharts := by simpa using hct
    have hm' : m.isEmpty = false := isEmpty_false m hm
    have hv' : (dsGet data id m).isEmpty = false := isEmpty_false _ hv
    rw [hs]
    simp [plot_data, hm', hv', hct']

/-- Witness for C8: with the identifier unchanged, the stored list is
kept and a line chart for `RPM` is appended to it. -/
theorem id_change_clears_stored_plots_witness :
    select_id_step ⟨[], false, some ("0x1".toList)⟩ ("0x1".toList) =
      ⟨[], false, some ("0x1".toList)⟩ ∧
    (plot_data ("0x1".toList) ("RPM".toList)
        [("0x1".toList, [("RPM".toList, [.scalar (.finite 5)])])] "Line Chart"
        (select_id_step ⟨[], false, some ("0x1".toList)⟩ ("0x1".toList))).1.stored_plots =
      [] ++ [⟨"Line Chart", "RPM".toList, color_palette.getD (0 % color_palette.length) ""⟩] := by
  have h := (id_change_clears_stored_plots ⟨[], false, some ("0x1".toList)⟩
    ("0x1".toList)).2 rfl
  exact ⟨h.1, h.2 ("0x1".toList) ("RPM".toList)
    [("0x1".toList, [("RPM".toList, [.scalar (.finite 5)])])] "Line Chart"
    (by decide) (by decide) (by decide)⟩

/-- C9: a line whose `ID:` marker is not followed by a `0x<hex>` token
(so the identifier search fails) never updates the current identifier:
with no identifier set it is dropped, and with one set it is treated by
the measurement pattern as a series named `ID`, appending the parsed
numeric value. -/
theorem invalid_id_line_as_measurement (line : List Char) (ls : List (List Char))
    (d : Dataset) (v : List Char) (q : PyFloat) (i : List Char)
    (hid : searchPos canIdMatchAt line = none)
    (hdb : searchPos dataBytesMatchAt line = none)
    (hm : searchPos measurementMatchAt line = some ("ID".toList, v))
    (hq : pyFloat (stripUnits v) = some q) :
    processLines (line :: ls) none d = processLines ls none d ∧
    processLines (line :: ls) (some i) d =
      processLines ls (some i) (dsAppend i ("ID".toList) (.scalar q) d) :=
  ⟨processLines_skip_no_cid line ls d hid,
   processLines_meas_ok line ls i d ("ID".toList) v q hid hdb hm hq⟩

/-- Witness for C9 at the line `ID: 123`, recorded under identifier `0x1`
as the series `ID` with value 123. -/
theorem invalid_id_line_as_measurement_witness :
    processLines ["ID: 123".toList] none [] = processLines [] none [] ∧
    processLines ["ID: 123".toList] (some ("0x1".toList)) [] =
      processLines [] (some ("0x1".toList))
        (dsAppend ("0x1".toList) ("ID".toList) (.scalar (.finite 123)) []) :=
  invalid_id_line_as_measurement ("ID: 123".toList) [] [] ("123".toList)
    (.finite 123) ("0x1".toList) (by decide) (by decide) (by decide) (by decide)

/-- C10: on a measurement line whose name part is several words joined by
spaces, the regex search captures only the last word immediately before
the colon as the series name, and the parsed value is appended under that
truncated name. -/
theorem multiword_name_truncated (ws : List (List Char)) (w2 rest : List Char)
    (ls : List (List Char)) (i : List Char) (d : Dataset) (q : PyFloat)
    (hws : ∀ w ∈ ws, ∀ c ∈ w, isWordChar c)
    (hw2 : w2 ≠ []) (hw2w : ∀ c ∈ w2, isWordChar c)
    (hid : searchPos canIdMatchAt (joinSpaces (ws ++ [w2]) ++ ':' :: rest) = none)
    (hdb : searchPos dataBytesMatchAt (joinSpaces (ws ++ [w2]) ++ ':' :: rest) = none)
    (hq : pyFloat (stripUnits (rest.dropWhile isSpaceChar)) = some q) :
    searchPos measurementMatchAt (joinSpaces (ws ++ [w2]) ++ ':' :: rest) =
      some (w2, rest.dropWhile isSpaceChar) ∧
    processLines ((joinSpaces (ws ++ [w2]) ++ ':' :: rest) :: ls) (some i) d =
      processLines ls (some i) (dsAppend i w2 (.scalar q) d) := by
  have hs := searchPos_meas_join ws w2 rest hws hw2 hw2w
  exact ⟨hs, processLines_meas_ok _ ls i d w2 _ q hid hdb hs hq⟩

/-- Witness for C10 at the line `Motor Current: 5`: the series name is
`Current`, not `Motor Current`, and 5 is appended under it. -/
theorem multiword_name_truncated_witness :
    searchPos measurementMatchAt ("Motor Current: 5".toList) =
      some ("Current".toList, "5".toList) ∧
    processLines ["Motor Current: 5".toList] (some ("0x1".toList)) [] =
      processLines [] (some ("0x1".toList))
        (dsAppend ("0x1".toList) ("Current".toList) (.scalar (.finite 5)) []) := by
  have h := multiword_name_truncated ["Motor".toList] ("Current".toList)
    (" 5".toList) [] ("0x1".toList) [] (.finite 5)
    (by decide) (by decide) (by decide) (by decide) (by decide) (by decide)
  exact h

end TMC
